import Mathlib

/-!
Verification of the playlist curation engine in `agents/music_curator.py`.

The engine is embedded shallowly: Python dicts become structures, the two
external collaborators (the track-pool search `search_tracks_by_bpm` and the
advisory curation service `_call_dedalus`) become oracle parameters, Python
`int` becomes `Int`, and the float phase fractions become `Rat` (exact for
every dyadic fraction appearing in the claims).  The advisory call either
raises (modelled `none`) or returns a parsed `track_ids` list (`some ids`).
-/

namespace MusicCurator

/-- Workout phases, the keys of the Python bucket dict (in its insertion
order: warmup, peak, cooldown). -/
inductive Phase : Type
  | warmup
  | peak
  | cooldown
deriving DecidableEq, Repr

/-- One song candidate, as the Python track dict.  `bpm = none` models a
missing/None bpm, `source`/`phase` model absent keys with `none`. -/
structure Track where
  id : String
  name : String := ""
  artist : String := ""
  bpm : Option Int := none
  duration_ms : Int := 0
  genre : String := ""
  source : Option String := none
  phase : Option Phase := none
deriving DecidableEq, Repr

/-- A closed BPM interval `[lo, hi]`, the Python two-element list. -/
structure BpmRange where
  lo : Int
  hi : Int
deriving DecidableEq, Repr

/-- The workout plan consumed by `curate_playlist` (Agent 1 output). -/
structure WorkoutPlan where
  warmup_frac : Rat
  peak_frac : Rat
  cooldown_frac : Rat
  warmup_bpm_range : BpmRange
  peak_bpm_range : BpmRange
  cooldown_bpm_range : BpmRange

/-- The argument record of one `search_tracks_by_bpm` call (the Python
`exclude_ids` set is modelled by a list used only through membership). -/
structure SearchQuery where
  min_bpm : Int
  max_bpm : Int
  genre : Option String
  exclude_ids : List String
  limit : Int
  artist_hints : Option (List String)
  diverse : Bool
deriving DecidableEq, Repr

/-- The (already failure-handled) result of `_ask_dedalus_discovery_hints`. -/
structure DiscoveryHints where
  genres : List String
  artist_hints : List String

/-- `_total_duration_ms`: sum of `duration_ms` over a track list. -/
def totalDurationMs (ts : List Track) : Int :=
  (ts.map Track.duration_ms).sum

/-- `_phase_target_ms`: `int(workout_minutes * 60 * 1000 * frac)`, the
exact product truncated toward zero (Python `int()`), written over the
fraction's numerator and denominator so it stays integer arithmetic. -/
def phaseTargetMs (workout_minutes : Int) (frac : Rat) : Int :=
  ((workout_minutes * 60 * 1000) * frac.num).tdiv (frac.den : Int)

/-- The discovery request size of the gap filler:
`min(80, max(12, int(needed_ms / 180_000) + 6))`.  `Int.tdiv` is Python
`int()` truncation of the quotient. -/
def estNeeded (needed_ms : Int) : Int :=
  min 80 (max 12 (needed_ms.tdiv 180000 + 6))

/-- Range membership test `range[0] <= bpm <= range[1]`. -/
def inRange (b : Int) (r : BpmRange) : Bool :=
  decide (r.lo ≤ b ∧ b ≤ r.hi)

/-- Distance from a bpm to the nearer boundary of a range:
`min(abs(bpm - r[0]), abs(bpm - r[1]))`. -/
def rangeDist (b : Int) (r : BpmRange) : Nat :=
  min (b - r.lo).natAbs (b - r.hi).natAbs

/-- Python `min(dists, key=dists.get)` over the dict built in insertion
order warmup, peak, cooldown: a linear scan keeping the first strictly
smaller value. -/
def closestPhase (dw dp dc : Nat) : Phase :=
  if dp < dw then (if dc < dp then Phase.cooldown else Phase.peak)
  else (if dc < dw then Phase.cooldown else Phase.warmup)

/-- The per-track branch of `_bucket_tracks_by_phase`: first matching range
in the order warmup, peak, cooldown, else the closest phase. -/
def assignPhase (b : Int) (wr pr cr : BpmRange) : Phase :=
  if inRange b wr then Phase.warmup
  else if inRange b pr then Phase.peak
  else if inRange b cr then Phase.cooldown
  else closestPhase (rangeDist b wr) (rangeDist b pr) (rangeDist b cr)

/-- The three bucket lists of `_bucket_tracks_by_phase`. -/
structure PhaseBuckets where
  warmup : List Track
  peak : List Track
  cooldown : List Track
deriving DecidableEq, Repr

/-- Bucket selection by phase name. -/
def PhaseBuckets.get (bks : PhaseBuckets) : Phase → List Track
  | Phase.warmup => bks.warmup
  | Phase.peak => bks.peak
  | Phase.cooldown => bks.cooldown

/-- `_bucket_tracks_by_phase`: tracks without a bpm are skipped, the rest
are appended to the bucket chosen by `assignPhase`, preserving input
order inside each bucket. -/
def bucketTracksByPhase : List Track → BpmRange → BpmRange → BpmRange → PhaseBuckets
  | [], _, _, _ => ⟨[], [], []⟩
  | t :: rest, wr, pr, cr =>
    let bks := bucketTracksByPhase rest wr pr cr
    match t.bpm with
    | none => bks
    | some v =>
      match assignPhase v wr pr cr with
      | Phase.warmup => { bks with warmup := t :: bks.warmup }
      | Phase.peak => { bks with peak := t :: bks.peak }
      | Phase.cooldown => { bks with cooldown := t :: bks.cooldown }

/-- The sort key `t.get("bpm", 0)` used by the deterministic fallback. -/
def bpmKey (t : Track) : Int := t.bpm.getD 0

/-- The fallback ordering: ascending bpm for warmup, descending for
cooldown (both stable, as Python `list.sort`), original order for peak. -/
def sortForPhase (phase : Phase) (ts : List Track) : List Track :=
  match phase with
  | Phase.warmup => ts.mergeSort (fun a b => decide (bpmKey a ≤ bpmKey b))
  | Phase.cooldown => ts.mergeSort (fun a b => decide (bpmKey b ≤ bpmKey a))
  | Phase.peak => ts

/-- `_ask_dedalus_to_curate`: a successful call yields the parsed
`track_ids` list; an exception falls back to the bpm sort of the
candidates and returns all their ids. -/
def askDedalusToCurate (adv : Phase → List Track → Int → BpmRange → Option (List String))
    (phase : Phase) (candidates : List Track) (target_ms : Int) (range : BpmRange) :
    List String :=
  match adv phase candidates target_ms range with
  | some ids => ids
  | none => (sortForPhase phase candidates).map Track.id

/-- The dict comprehension `{t["id"]: t for t in candidates}` followed by a
lookup: the LAST candidate with a given id wins. -/
def lookupById : List Track → String → Option Track
  | [], _ => none
  | t :: rest, tid =>
    match lookupById rest tid with
    | some u => some u
    | none => if t.id = tid then some t else none

/-- The first reconstruction loop of `curate_playlist`: walk `ordered_ids`,
adding the looked-up track when its id is known, not yet added, and the
running total is still below target.  Returns (tracks, added ids, total). -/
def selectByIds (phase : Phase) (candidates : List Track) (target_ms : Int) :
    List String → List Track → List String → Int → List Track × List String × Int
  | [], acc, added, total => (acc, added, total)
  | tid :: rest, acc, added, total =>
    match lookupById candidates tid with
    | none => selectByIds phase candidates target_ms rest acc added total
    | some track =>
      if tid ∉ added ∧ total < target_ms then
        selectByIds phase candidates target_ms rest
          (acc ++ [{ track with phase := some phase }]) (added ++ [tid])
          (total + track.duration_ms)
      else
        selectByIds phase candidates target_ms rest acc added total

/-- The second loop of `curate_playlist` (and the shape of the top-up
loop): append tracks, tagged with the phase, until the running total
meets or exceeds the target or the list is exhausted. -/
def fillToTarget (phase : Phase) (target_ms : Int) : Int → List Track → List Track
  | _, [] => []
  | total, t :: rest =>
    if target_ms ≤ total then []
    else { t with phase := some phase } :: fillToTarget phase target_ms (total + t.duration_ms) rest

/-- Lines 477–507 of `curate_playlist`: rebuild the phase list from the
advisory id order, then, if still short, top up from the remaining
candidates in the phase's fallback sort order. -/
def buildPhaseTracks (phase : Phase) (candidates : List Track) (ordered_ids : List String)
    (target_ms : Int) : List Track :=
  let sel := selectByIds phase candidates target_ms ordered_ids [] [] 0
  let phase_tracks := sel.1
  let added := sel.2.1
  let total := sel.2.2
  if total < target_ms then
    let remaining := candidates.filter (fun t => decide (t.id ∉ added))
    phase_tracks ++ fillToTarget phase target_ms total (sortForPhase phase remaining)
  else phase_tracks

/-- One phase's ordering step: the advisory call (with fallback on
exception) followed by the reconstruction/top-up of `buildPhaseTracks`. -/
def curateOnePhase (adv : Phase → List Track → Int → BpmRange → Option (List String))
    (phase : Phase) (candidates : List Track) (target_ms : Int) (range : BpmRange) :
    List Track :=
  buildPhaseTracks phase candidates (askDedalusToCurate adv phase candidates target_ms range) target_ms

/-- The deterministic fallback exactly as the spec words it, walking the
sorted candidates: take tracks until the running total duration meets or
exceeds the phase target or candidates are exhausted, tagging the phase. -/
def specFallbackWalk (phase : Phase) (target_ms : Int) : Int → List Track → List Track
  | _, [] => []
  | total, t :: rest =>
    if target_ms ≤ total then []
    else { t with phase := some phase } :: specFallbackWalk phase target_ms (total + t.duration_ms) rest

/-- The spec's deterministic fallback on a candidate set: sort ascending
by BPM for warmup, descending for cooldown, original order for peak, then
take tracks until the phase target is met or candidates run out. -/
def specFallback (phase : Phase) (candidates : List Track) (target_ms : Int) : List Track :=
  specFallbackWalk phase target_ms 0 (sortForPhase phase candidates)

/-- Proof-side companion of `selectByIds` for a straight walk over a list
of known fresh tracks: the selected tagged tracks, the added ids, and the
running total where additions stopped. -/
def straightTriple (phase : Phase) (target_ms : Int) :
    Int → List Track → List Track × List String × Int
  | total, [] => ([], [], total)
  | total, t :: rest =>
    if total < target_ms then
      let r := straightTriple phase target_ms (total + t.duration_ms) rest
      ({ t with phase := some phase } :: r.1, t.id :: r.2.1, r.2.2)
    else ([], [], total)

/-- Line 391–393: tag untagged input tracks with `source = "familiar"`. -/
def tagFamiliar (t : Track) : Track :=
  if t.source = none then { t with source := some "familiar" } else t

/-- `_infer_genres`: the lowercased non-empty genre tags (the Python set is
modelled in first-occurrence order), at most five, comma-joined. -/
def inferGenres (tracks : List Track) : String :=
  let genres := tracks.foldl
    (fun acc t =>
      if t.genre ≠ "" ∧ t.genre.toLower ∉ acc then acc ++ [t.genre.toLower] else acc) []
  if genres = [] then "" else String.intercalate ", " (genres.take 5)

/-- Lines 415–421: merge the hint genres with the comma-separated user or
inferred genre preference, skipping case-insensitive duplicates. -/
def mergeGenres (hint_genres : List String) (genre_pref : String) : List String :=
  if genre_pref = "" then hint_genres
  else
    (genre_pref.splitOn ",").foldl
      (fun acc g =>
        let g := g.trim.toLower
        if g ≠ "" ∧ g ∉ acc.map String.toLower then acc ++ [g] else acc)
      hint_genres

/-- The state threaded through the phase loop of `curate_playlist`.  The
`queries` field is write-only instrumentation recording every discovery
query issued, in order. -/
structure CurateState where
  playlist : List Track
  used_ids : List String
  queries : List SearchQuery
deriving Repr

/-- The discovery query of the gap filler (lines 451–459). -/
def phaseQuery (r : BpmRange) (genre : Option String) (used : List String) (est : Int)
    (hint_artists : List String) : SearchQuery :=
  { min_bpm := r.lo, max_bpm := r.hi, genre := genre, exclude_ids := used, limit := est,
    artist_hints := if hint_artists = [] then none else some hint_artists, diverse := true }

/-- One iteration of the phase loop (lines 438–507): gap-fill with a
discovery query when the familiar pool is short of the phase target,
record the returned ids in the used set, then order the phase. -/
def processPhase (discover : SearchQuery → List Track)
    (adv : Phase → List Track → Int → BpmRange → Option (List String))
    (genre : Option String) (hint_artists : List String) (workout_minutes : Int)
    (fracs : Phase → Rat) (ranges : Phase → BpmRange) (buckets : PhaseBuckets)
    (st : CurateState) (phase : Phase) : CurateState :=
  let target_ms := phaseTargetMs workout_minutes (fracs phase)
  let phase_familiar := buckets.get phase
  let familiar_ms := totalDurationMs phase_familiar
  let step :=
    if familiar_ms < target_ms then
      let q := phaseQuery (ranges phase) genre st.used_ids
        (estNeeded (target_ms - familiar_ms)) hint_artists
      let discovery := discover q
      (phase_familiar ++ discovery, st.used_ids ++ discovery.map Track.id, st.queries ++ [q])
    else (phase_familiar, st.used_ids, st.queries)
  let candidates := step.1
  let used := step.2.1
  let queries := step.2.2
  if candidates = [] then { playlist := st.playlist, used_ids := used, queries := queries }
  else
    { playlist := st.playlist ++ curateOnePhase adv phase candidates target_ms (ranges phase),
      used_ids := used, queries := queries }

/-- Lines 386–507 of `curate_playlist`: tag sources, bucket the bpm-tagged
familiar tracks, seed the exclusion set with their ids, resolve the genre
string, and run the three phases in order. -/
def curatePipeline (discover : SearchQuery → List Track)
    (adv : Phase → List Track → Int → BpmRange → Option (List String))
    (hints : DiscoveryHints) (workout_plan : WorkoutPlan)
    (familiar_tracks : List Track) (workout_minutes : Int) (genre_pref : String) :
    CurateState :=
  let familiar_tracks := familiar_tracks.map tagFamiliar
  let familiar_with_bpm := familiar_tracks.filter (fun t => t.bpm.isSome)
  let buckets := bucketTracksByPhase familiar_with_bpm workout_plan.warmup_bpm_range
    workout_plan.peak_bpm_range workout_plan.cooldown_bpm_range
  let familiar_ids := familiar_with_bpm.map Track.id
  let genre_pref := if genre_pref = "" then inferGenres familiar_with_bpm else genre_pref
  let all_genres := mergeGenres hints.genres genre_pref
  let discovery_genre_str := if all_genres = [] then none
    else some (String.intercalate ", " all_genres)
  let fracs : Phase → Rat := fun p =>
    match p with
    | Phase.warmup => workout_plan.warmup_frac
    | Phase.peak => workout_plan.peak_frac
    | Phase.cooldown => workout_plan.cooldown_frac
  let ranges : Phase → BpmRange := fun p =>
    match p with
    | Phase.warmup => workout_plan.warmup_bpm_range
    | Phase.peak => workout_plan.peak_bpm_range
    | Phase.cooldown => workout_plan.cooldown_bpm_range
  [Phase.warmup, Phase.peak, Phase.cooldown].foldl
    (processPhase discover adv discovery_genre_str hints.artist_hints workout_minutes
      fracs ranges buckets)
    { playlist := [], used_ids := familiar_ids, queries := [] }

/-- The top-up append loop (lines 526–531): stop once the shortfall is
covered, tagging each appended track `phase = cooldown`. -/
def topUpLoop (shortfall : Int) : List Track → List Track
  | [] => []
  | t :: rest =>
    if shortfall ≤ 0 then []
    else { t with phase := some Phase.cooldown } :: topUpLoop (shortfall - t.duration_ms) rest

/-- The top-up discovery query (lines 519–525): cooldown BPM range, no
genre filter, excluding every id already in the playlist, limit 20, and
the defaults `artist_hints = None`, `diverse = True` of
`search_tracks_by_bpm`. -/
def topUpQuery (cooldown_range : BpmRange) (final_playlist : List Track) : SearchQuery :=
  { min_bpm := cooldown_range.lo, max_bpm := cooldown_range.hi, genre := none,
    exclude_ids := final_playlist.map Track.id, limit := 20,
    artist_hints := none, diverse := true }

/-- The global duration top-up (lines 512–531): when the playlist is more
than two minutes short, one discovery query over the cooldown range with
no genre filter, excluding every id already in the playlist. -/
def globalTopUp (discover : SearchQuery → List Track) (cooldown_range : BpmRange)
    (workout_minutes : Int) (final_playlist : List Track) : List Track :=
  let shortfall := workout_minutes * 60 * 1000 - totalDurationMs final_playlist
  if shortfall > 2 * 60 * 1000 then
    let topup := discover (topUpQuery cooldown_range final_playlist)
    final_playlist ++ topUpLoop shortfall topup
  else final_playlist

/-- The final safety-net deduplication (lines 533–541), keeping the first
occurrence of each id. -/
def dedupByIdAux (seen : List String) : List Track → List Track
  | [] => []
  | t :: rest =>
    if t.id ∈ seen then dedupByIdAux seen rest
    else t :: dedupByIdAux (t.id :: seen) rest

/-- `dedupById` is the final dedup pass started with an empty seen set. -/
def dedupById (ts : List Track) : List Track := dedupByIdAux [] ts

/-- `curate_playlist` end to end: the phase pipeline, the global top-up,
then the final dedup. -/
def curate_playlist (discover : SearchQuery → List Track)
    (adv : Phase → List Track → Int → BpmRange → Option (List String))
    (hints : DiscoveryHints) (workout_plan : WorkoutPlan)
    (familiar_tracks : List Track) (workout_minutes : Int) (genre_pref : String) :
    List Track :=
  dedupById (globalTopUp discover workout_plan.cooldown_bpm_range workout_minutes
    (curatePipeline discover adv hints workout_plan familiar_tracks workout_minutes
      genre_pref).playlist)

/-- The phase-minimising rule as the spec words it: the smallest of the
three distances wins, ties broken by the fixed order warmup, peak,
cooldown (the first phase achieving the minimum). -/
def specClosestPhase (dw dp dc : Nat) : Phase :=
  if dw = min dw (min dp dc) then Phase.warmup
  else if dp = min dw (min dp dc) then Phase.peak
  else Phase.cooldown

/-- The phase-assignment rule as the spec words it: first matching range
in the order warmup, peak, cooldown, else the distance-minimising phase. -/
def specAssignPhase (b : Int) (wr pr cr : BpmRange) : Phase :=
  if inRange b wr then Phase.warmup
  else if inRange b pr then Phase.peak
  else if inRange b cr then Phase.cooldown
  else specClosestPhase (rangeDist b wr) (rangeDist b pr) (rangeDist b cr)

/-- Decidable form of the bucket membership test for a track. -/
def trackGoesTo (wr pr cr : BpmRange) (p : Phase) (t : Track) : Bool :=
  match t.bpm with
  | none => false
  | some v => decide (assignPhase v wr pr cr = p)

/-- A familiar track of the end-to-end scenario: 210000 ms with the given
bpm. -/
def scenarioTrack (n : Nat) (b : Int) : Track :=
  { id := toString n, bpm := some b, duration_ms := 210000 }

/-- The ten familiar tracks of the end-to-end scenario, bpm values
95, 100, 105, 150, 155, 160, 165, 170, 95, 100. -/
def scenarioTracks : List Track :=
  [scenarioTrack 1 95, scenarioTrack 2 100, scenarioTrack 3 105, scenarioTrack 4 150,
   scenarioTrack 5 155, scenarioTrack 6 160, scenarioTrack 7 165, scenarioTrack 8 170,
   scenarioTrack 9 95, scenarioTrack 10 100]

/-- An advisory oracle that always raises. -/
def advFail : Phase → List Track → Int → BpmRange → Option (List String) :=
  fun _ _ _ _ => none

/-- Two distinct candidate records sharing the id "x" (durations 100 and
200 ms). -/
def dupTrackA : Track := { id := "x", bpm := some 100, duration_ms := 100 }

/-- Second record with the duplicate id "x". -/
def dupTrackB : Track := { id := "x", bpm := some 100, duration_ms := 200 }

/-- Four candidates of 200000 ms each, already in ascending bpm order. -/
def fourTracks : List Track :=
  [{ id := "a", bpm := some 100, duration_ms := 200000 },
   { id := "b", bpm := some 110, duration_ms := 200000 },
   { id := "c", bpm := some 120, duration_ms := 200000 },
   { id := "d", bpm := some 130, duration_ms := 200000 }]

/-- A single discovery track used by concrete oracle runs. -/
def discTrack : Track := { id := "d1", bpm := some 100, duration_ms := 200000 }

/-- A discovery oracle returning the same single track for every query. -/
def discConst : SearchQuery → List Track := fun _ => [discTrack]

/-- A discovery oracle returning no tracks for every query. -/
def discEmpty : SearchQuery → List Track := fun _ => []

/-- Empty discovery hints (the fallback of `_ask_dedalus_discovery_hints`
with no genre preference). -/
def hintsEmpty : DiscoveryHints := ⟨[], []⟩

/-- A concrete workout plan: fractions 1/4, 1/2, 1/4 with the scenario
ranges. -/
def planConcrete : WorkoutPlan :=
  ⟨Rat.mk' 1 4, Rat.mk' 1 2, Rat.mk' 1 4, ⟨90, 120⟩, ⟨140, 180⟩, ⟨90, 120⟩⟩

/-- A padding track leaving a shortfall of exactly 120000 ms in a
30-minute workout. -/
def padExact : Track := { id := "p", duration_ms := 30 * 60 * 1000 - 120000 }

/-- A padding track leaving a shortfall of 120001 ms in a 30-minute
workout. -/
def padOver : Track := { id := "p", duration_ms := 30 * 60 * 1000 - 120001 }

/-! Lemmas about the final dedup pass. -/

theorem dedupByIdAux_fresh_nodup (l : List Track) :
    ∀ seen : List String,
      (∀ t ∈ dedupByIdAux seen l, t.id ∉ seen) ∧
      ((dedupByIdAux seen l).map Track.id).Nodup := by
  induction l with
  | nil => intro seen; simp [dedupByIdAux]
  | cons t rest ih =>
    intro seen
    by_cases h : t.id ∈ seen
    · simpa [dedupByIdAux, h] using ih seen
    · have ih' := ih (t.id :: seen)
      refine ⟨?_, ?_⟩
      · intro u hu
        rw [dedupByIdAux, if_neg h] at hu
        rcases List.mem_cons.mp hu with rfl | hu'
        · exact h
        · have := ih'.1 u hu'
          intro hin
          exact this (List.mem_cons_of_mem _ hin)
      · rw [dedupByIdAux, if_neg h]
        rw [List.map_cons, List.nodup_cons]
        refine ⟨?_, ih'.2⟩
        intro hmem
        rcases List.mem_map.mp hmem with ⟨u, hu, hid⟩
        exact ih'.1 u hu (hid ▸ List.mem_cons_self _ _)

theorem dedupByIdAux_id_of_nodup (l : List Track) :
    ∀ seen : List String, (∀ t ∈ l, t.id ∉ seen) → ((l.map Track.id).Nodup) →
      dedupByIdAux seen l = l := by
  induction l with
  | nil => intro seen _ _; simp [dedupByIdAux]
  | cons t rest ih =>
    intro seen hfresh hnd
    have ht : t.id ∉ seen := hfresh t (List.mem_cons_self _ _)
    rw [dedupByIdAux, if_neg ht]
    rw [List.map_cons, List.nodup_cons] at hnd
    congr 1
    apply ih (t.id :: seen)
    · intro u hu
      intro hin
      rcases List.mem_cons.mp hin with h1 | h2
      · exact hnd.1 (h1 ▸ List.mem_map_of_mem Track.id hu)
      · exact hfresh u (List.mem_cons_of_mem _ hu) h2
    · exact hnd.2

/-- Claim C1: every playlist returned by `curate_playlist` contains each
track id at most once — its length equals the number of distinct ids —
for every choice of oracles and inputs, including familiar lists with
duplicate ids and overlapping discovery or top-up results. -/
theorem curate_playlist_no_duplicate_ids (discover : SearchQuery → List Track)
    (adv : Phase → List Track → Int → BpmRange → Option (List String))
    (hints : DiscoveryHints) (workout_plan : WorkoutPlan) (familiar_tracks : List Track)
    (workout_minutes : Int) (genre_pref : String) :
    ((curate_playlist discover adv hints workout_plan familiar_tracks workout_minutes
        genre_pref).map Track.id).Nodup := by
  unfold curate_playlist dedupById
  exact (dedupByIdAux_fresh_nodup _ []).2

/-- Claim C8: the final dedup pass is idempotent — applying it twice
yields a sequence identical to applying it once, for every track list. -/
theorem final_dedup_idempotent (ts : List Track) :
    dedupById (dedupById ts) = dedupById ts := by
  unfold dedupById
  apply dedupByIdAux_id_of_nodup
  · intro t _
    simp
  · exact (dedupByIdAux_fresh_nodup ts []).2

/-- Claim C7: the gap filler's discovery request size
`min(80, max(12, needed_ms / 180000 + 6))` is monotonically non-decreasing
in `needed_ms` over positive shortfalls, and is never zero when a gap
exists — it is at least 12. -/
theorem gap_filler_request_monotone (a b : Int) (ha : 0 < a) (hab : a ≤ b) :
    estNeeded a ≤ estNeeded b ∧ 12 ≤ estNeeded a ∧ 0 < estNeeded a := by
  have h1 : a.tdiv 180000 = a / 180000 := by
    match a, ha.le with
    | Int.ofNat m, _ => rfl
  have h2 : b.tdiv 180000 = b / 180000 := by
    match b, (ha.le.trans hab) with
    | Int.ofNat m, _ => rfl
  unfold estNeeded
  rw [h1, h2]
  omega

/-- Witness for C7: the request size at shortfalls 1800000 and 3600000 ms. -/
theorem gap_filler_request_monotone_witness :
    (0 < (1800000 : Int) ∧ (1800000 : Int) ≤ 3600000) ∧
    (estNeeded 1800000 ≤ estNeeded 3600000 ∧ 12 ≤ estNeeded 1800000 ∧
      0 < estNeeded 1800000) :=
  ⟨by decide, gap_filler_request_monotone 1800000 3600000 (by decide) (by decide)⟩

/-- Counterexample for C9: on the end-to-end scenario input the bucketer
does NOT yield a warmup/cooldown pool of 6 tracks and a peak pool of 4 —
the stated bpm list has five values at most 120 and five at least 140. -/
theorem scenario_bucket_pools_counterexample :
    ¬ ((bucketTracksByPhase scenarioTracks ⟨90, 120⟩ ⟨140, 180⟩ ⟨90, 120⟩).warmup.length +
        (bucketTracksByPhase scenarioTracks ⟨90, 120⟩ ⟨140, 180⟩ ⟨90, 120⟩).cooldown.length = 6 ∧
       (bucketTracksByPhase scenarioTracks ⟨90, 120⟩ ⟨140, 180⟩ ⟨90, 120⟩).peak.length = 4) := by
  decide

/-- Claim C9 (amended): on the end-to-end scenario input the bucketer
yields a warmup/cooldown pool of 5 tracks, all with bpm at most 120 (all
of them in the warmup bucket, the cooldown bucket being empty since the
two ranges coincide and warmup has priority), and a peak pool of 5
tracks, all with bpm at least 140. -/
theorem scenario_bucket_pools :
    (bucketTracksByPhase scenarioTracks ⟨90, 120⟩ ⟨140, 180⟩ ⟨90, 120⟩).warmup.length +
      (bucketTracksByPhase scenarioTracks ⟨90, 120⟩ ⟨140, 180⟩ ⟨90, 120⟩).cooldown.length = 5 ∧
    (bucketTracksByPhase scenarioTracks ⟨90, 120⟩ ⟨140, 180⟩ ⟨90, 120⟩).peak.length = 5 ∧
    (bucketTracksByPhase scenarioTracks ⟨90, 120⟩ ⟨140, 180⟩ ⟨90, 120⟩).cooldown = [] ∧
    ((bucketTracksByPhase scenarioTracks ⟨90, 120⟩ ⟨140, 180⟩ ⟨90, 120⟩).warmup.all
      (fun t => t.bpm.isSome ∧ t.bpm.getD 0 ≤ 120)) = true ∧
    ((bucketTracksByPhase scenarioTracks ⟨90, 120⟩ ⟨140, 180⟩ ⟨90, 120⟩).peak.all
      (fun t => t.bpm.isSome ∧ 140 ≤ t.bpm.getD 0)) = true := by
  decide

/-! Lemmas about duration sums and the fill loops. -/

theorem totalDurationMs_nil : totalDurationMs [] = 0 := rfl

theorem totalDurationMs_cons (t : Track) (ts : List Track) :
    totalDurationMs (t :: ts) = t.duration_ms + totalDurationMs ts := by
  simp [totalDurationMs]

theorem totalDurationMs_nonneg (l : List Track) (h : ∀ t ∈ l, 0 ≤ t.duration_ms) :
    0 ≤ totalDurationMs l := by
  induction l with
  | nil => simp [totalDurationMs]
  | cons t rest ih =>
    rw [totalDurationMs_cons]
    have h1 := h t (List.mem_cons_self _ _)
    have h2 := ih (fun u hu => h u (List.mem_cons_of_mem _ hu))
    omega

theorem fillToTarget_spec (phase : Phase) (target_ms : Int) :
    ∀ (l : List Track) (total : Int), (∀ t ∈ l, 0 ≤ t.duration_ms) →
    ∃ k, k ≤ l.length ∧
      fillToTarget phase target_ms total l =
        (l.take k).map (fun t => { t with phase := some phase }) ∧
      (target_ms ≤ total + totalDurationMs l →
        target_ms ≤ total + totalDurationMs (l.take k)) ∧
      (∀ j, j < k → total + totalDurationMs (l.take j) < target_ms) ∧
      (total + totalDurationMs l < target_ms → k = l.length) := by
  intro l
  induction l with
  | nil =>
    intro total _
    exact ⟨0, by simp [fillToTarget, totalDurationMs]⟩
  | cons t rest ih =>
    intro total h
    by_cases hbr : target_ms ≤ total
    · refine ⟨0, by simp, by simp [fillToTarget, hbr], ?_, by omega, ?_⟩
      · intro _
        simpa [totalDurationMs] using hbr
      · intro hlt
        exfalso
        have := totalDurationMs_nonneg (t :: rest) h
        omega
    · obtain ⟨k', hk1, hk2, hk3, hk4, hk5⟩ :=
        ih (total + t.duration_ms) (fun u hu => h u (List.mem_cons_of_mem _ hu))
      refine ⟨k' + 1, by simpa using Nat.succ_le_succ hk1, ?_, ?_, ?_, ?_⟩
      · simp only [fillToTarget, if_neg hbr, List.take_succ_cons, List.map_cons]
        rw [hk2]
      · intro hge
        rw [List.take_succ_cons, totalDurationMs_cons]
        rw [totalDurationMs_cons] at hge
        have := hk3 (by omega)
        omega
      · intro j hj
        match j with
        | 0 =>
          rw [List.take_zero, totalDurationMs_nil]
          omega
        | j' + 1 =>
          rw [List.take_succ_cons, totalDurationMs_cons]
          have := hk4 j' (by omega)
          omega
      · intro hlt
        rw [totalDurationMs_cons] at hlt
        have := hk5 (by omega)
        simp [this]

/-- Claim C4: the Phase Curator fallback loop selects exactly the minimal
prefix (in its sort order) whose cumulative duration reaches the phase
target — never a strictly shorter prefix — and when the pool cannot reach
the target it selects every remaining candidate. -/
theorem fallback_minimal_selection (phase : Phase) (target_ms : Int) (l : List Track)
    (hdur : ∀ t ∈ l, 0 ≤ t.duration_ms) :
    ∃ k, k ≤ l.length ∧
      fillToTarget phase target_ms 0 l =
        (l.take k).map (fun t => { t with phase := some phase }) ∧
      (target_ms ≤ totalDurationMs l → target_ms ≤ totalDurationMs (l.take k)) ∧
      (∀ j, j < k → totalDurationMs (l.take j) < target_ms) ∧
      (totalDurationMs l < target_ms → k = l.length) := by
  have h := fillToTarget_spec phase target_ms l 0 hdur
  simpa using h

/-- Witness for C4: with target 600000 ms and four candidates of 200000 ms
each in sorted order, the fallback selects the first three. -/
theorem fallback_minimal_selection_witness :
    (∀ t ∈ fourTracks, 0 ≤ t.duration_ms) ∧
    (fillToTarget Phase.warmup 600000 0 fourTracks).length = 3 ∧
    (∃ k, k ≤ fourTracks.length ∧
      fillToTarget Phase.warmup 600000 0 fourTracks =
        (fourTracks.take k).map (fun t => { t with phase := some Phase.warmup }) ∧
      (600000 ≤ totalDurationMs fourTracks → 600000 ≤ totalDurationMs (fourTracks.take k)) ∧
      (∀ j, j < k → totalDurationMs (fourTracks.take j) < 600000) ∧
      (totalDurationMs fourTracks < 600000 → k = fourTracks.length)) :=
  ⟨by decide, by decide,
    fallback_minimal_selection Phase.warmup 600000 fourTracks (by decide)⟩

theorem topUpLoop_spec : ∀ (ts : List Track) (sf : Int),
    ∃ k, k ≤ ts.length ∧
      topUpLoop sf ts = (ts.take k).map (fun t => { t with phase := some Phase.cooldown }) ∧
      (∀ j, j < k → 0 < sf - totalDurationMs (ts.take j)) ∧
      (k < ts.length → sf - totalDurationMs (ts.take k) ≤ 0) := by
  intro ts
  induction ts with
  | nil =>
    intro sf
    exact ⟨0, by simp [topUpLoop]⟩
  | cons t rest ih =>
    intro sf
    by_cases hsf : sf ≤ 0
    · refine ⟨0, by simp, by simp [topUpLoop, hsf], by omega, ?_⟩
      intro _
      rw [List.take_zero, totalDurationMs_nil]
      omega
    · obtain ⟨k', hk1, hk2, hk3, hk4⟩ := ih (sf - t.duration_ms)
      refine ⟨k' + 1, by simpa using Nat.succ_le_succ hk1, ?_, ?_, ?_⟩
      · simp only [topUpLoop, if_neg hsf, List.take_succ_cons, List.map_cons]
        rw [hk2]
      · intro j hj
        match j with
        | 0 =>
          rw [List.take_zero, totalDurationMs_nil]
          omega
        | j' + 1 =>
          rw [List.take_succ_cons, totalDurationMs_cons]
          have := hk3 j' (by omega)
          omega
      · intro hk
        rw [List.take_succ_cons, totalDurationMs_cons]
        have := hk4 (by simpa using Nat.lt_of_succ_lt_succ hk)
        omega

/-- Claim C5: the global top-up runs if and only if the shortfall strictly
exceeds 120000 ms; when it does not run the playlist is returned
unchanged; when it runs, the result appends, to the playlist, the tracks
returned by the single discovery query over the cooldown BPM range with
no genre filter excluding every id already in the playlist, tagged
`phase = cooldown`, up to the minimal prefix covering the shortfall (or
all of them when they cannot cover it). -/
theorem global_topup_trigger_and_query (discover : SearchQuery → List Track)
    (cooldown_range : BpmRange) (workout_minutes : Int) (playlist : List Track) :
    (workout_minutes * 60 * 1000 - totalDurationMs playlist ≤ 120000 →
      globalTopUp discover cooldown_range workout_minutes playlist = playlist) ∧
    (120000 < workout_minutes * 60 * 1000 - totalDurationMs playlist →
      ∀ res : List Track,
        res = discover (topUpQuery cooldown_range playlist) →
        (topUpQuery cooldown_range playlist).genre = none ∧
        (topUpQuery cooldown_range playlist).exclude_ids = playlist.map Track.id ∧
        ∃ k, k ≤ res.length ∧
          globalTopUp discover cooldown_range workout_minutes playlist =
            playlist ++ (res.take k).map (fun t => { t with phase := some Phase.cooldown }) ∧
          (∀ j, j < k →
            0 < workout_minutes * 60 * 1000 - totalDurationMs playlist -
              totalDurationMs (res.take j)) ∧
          (k < res.length →
            workout_minutes * 60 * 1000 - totalDurationMs playlist -
              totalDurationMs (res.take k) ≤ 0)) := by
  constructor
  · intro h
    simp only [globalTopUp]
    rw [if_neg (by omega)]
  · intro h res hres
    obtain ⟨k, hk1, hk2, hk3, hk4⟩ :=
      topUpLoop_spec res (workout_minutes * 60 * 1000 - totalDurationMs playlist)
    refine ⟨rfl, rfl, k, hk1, ?_, hk3, hk4⟩
    simp only [globalTopUp]
    rw [if_pos (by omega), ← hres, hk2]

/-- Witness for C5: a 30-minute workout with a shortfall of exactly
120000 ms does not trigger the top-up, and one of 120001 ms does. -/
theorem global_topup_trigger_and_query_witness :
    ((30 * 60 * 1000 - totalDurationMs [padExact] ≤ 120000) ∧
      globalTopUp discConst ⟨90, 120⟩ 30 [padExact] = [padExact]) ∧
    ((120000 < 30 * 60 * 1000 - totalDurationMs [padOver]) ∧
      ((topUpQuery ⟨90, 120⟩ [padOver]).genre = none ∧
       (topUpQuery ⟨90, 120⟩ [padOver]).exclude_ids = [padOver].map Track.id ∧
       ∃ k, k ≤ (discConst (topUpQuery ⟨90, 120⟩ [padOver])).length ∧
        globalTopUp discConst ⟨90, 120⟩ 30 [padOver] =
          [padOver] ++ ((discConst (topUpQuery ⟨90, 120⟩ [padOver])).take k).map
            (fun t => { t with phase := some Phase.cooldown }) ∧
        (∀ j, j < k →
          0 < 30 * 60 * 1000 - totalDurationMs [padOver] -
            totalDurationMs ((discConst (topUpQuery ⟨90, 120⟩ [padOver])).take j)) ∧
        (k < (discConst (topUpQuery ⟨90, 120⟩ [padOver])).length →
          30 * 60 * 1000 - totalDurationMs [padOver] -
            totalDurationMs ((discConst (topUpQuery ⟨90, 120⟩ [padOver])).take k) ≤ 0))) :=
  ⟨⟨by decide, (global_topup_trigger_and_query discConst ⟨90, 120⟩ 30 [padExact]).1 (by decide)⟩,
   ⟨by decide, (global_topup_trigger_and_query discConst ⟨90, 120⟩ 30 [padOver]).2 (by decide)
      _ rfl⟩⟩

/-! Lemmas about the phase bucketer. -/

theorem closestPhase_eq_spec (dw dp dc : Nat) :
    closestPhase dw dp dc = specClosestPhase dw dp dc := by
  unfold closestPhase specClosestPhase
  split_ifs <;> first | rfl | (exfalso; omega)

theorem assignPhase_eq_spec (b : Int) (wr pr cr : BpmRange) :
    assignPhase b wr pr cr = specAssignPhase b wr pr cr := by
  unfold assignPhase specAssignPhase
  split_ifs <;> first | rfl | exact closestPhase_eq_spec _ _ _

theorem bucket_get_eq_filter (wr pr cr : BpmRange) (tracks : List Track) (p : Phase) :
    (bucketTracksByPhase tracks wr pr cr).get p =
      tracks.filter (trackGoesTo wr pr cr p) := by
  induction tracks with
  | nil => cases p <;> rfl
  | cons t rest ih =>
    rw [bucketTracksByPhase]
    cases hb : t.bpm with
    | none => simp [hb, trackGoesTo, List.filter_cons, ih]
    | some v =>
      cases hap : assignPhase v wr pr cr <;> cases p <;>
        (simp only [PhaseBuckets.get] at ih;
         simp [hb, hap, trackGoesTo, List.filter_cons, ih, PhaseBuckets.get])

/-- Claim C3: the bucketer's per-track rule equals the spec's rule (first
matching range in the fixed order warmup, peak, cooldown, else the phase
minimising the distance to the nearer boundary with ties broken by the
same order), each bucket is exactly the tracks assigned to it, every
bpm-tagged track lands in exactly one bucket, and bpm 200 with ranges
warmup [80,120], peak [130,185], cooldown [80,120] goes to peak. -/
theorem bucketer_phase_assignment (wr pr cr : BpmRange) :
    (∀ b : Int, assignPhase b wr pr cr = specAssignPhase b wr pr cr) ∧
    (∀ (tracks : List Track) (p : Phase),
      (bucketTracksByPhase tracks wr pr cr).get p =
        tracks.filter (trackGoesTo wr pr cr p)) ∧
    (∀ (tracks : List Track) (t : Track) (v : Int), t ∈ tracks → t.bpm = some v →
      ∃! p : Phase, t ∈ (bucketTracksByPhase tracks wr pr cr).get p) ∧
    assignPhase 200 ⟨80, 120⟩ ⟨130, 185⟩ ⟨80, 120⟩ = Phase.peak := by
  refine ⟨fun b => assignPhase_eq_spec b wr pr cr, bucket_get_eq_filter wr pr cr, ?_, by decide⟩
  intro tracks t v ht hv
  refine ⟨assignPhase v wr pr cr, ?_, ?_⟩
  · show t ∈ (bucketTracksByPhase tracks wr pr cr).get (assignPhase v wr pr cr)
    rw [bucket_get_eq_filter]
    exact List.mem_filter.mpr ⟨ht, by simp [trackGoesTo, hv]⟩
  · intro p hp
    rw [bucket_get_eq_filter] at hp
    have hpred := (List.mem_filter.mp hp).2
    rw [trackGoesTo, hv] at hpred
    exact (of_decide_eq_true hpred).symm

/-- Witness for C3: the first scenario track (bpm 95) lands in exactly one
bucket of the scenario ranges. -/
theorem bucketer_phase_assignment_witness :
    (scenarioTrack 1 95 ∈ scenarioTracks ∧ (scenarioTrack 1 95).bpm = some 95) ∧
    (∃! p : Phase,
      scenarioTrack 1 95 ∈ (bucketTracksByPhase scenarioTracks ⟨90, 120⟩ ⟨140, 180⟩
        ⟨90, 120⟩).get p) :=
  ⟨⟨by decide, rfl⟩,
    (bucketer_phase_assignment ⟨90, 120⟩ ⟨140, 180⟩ ⟨90, 120⟩).2.2.1 scenarioTracks
      (scenarioTrack 1 95) 95 (by decide) rfl⟩

/-! Lemmas about the advisory-failure fallback path. -/

theorem lookupById_eq_none (l : List Track) (tid : String) (h : tid ∉ l.map Track.id) :
    lookupById l tid = none := by
  induction l with
  | nil => rfl
  | cons t rest ih =>
    rw [List.map_cons, List.mem_cons] at h
    push_neg at h
    rw [lookupById, ih h.2]
    simp only [if_neg (fun he => h.1 (Eq.symm he))]

theorem lookupById_mem (l : List Track) (hnodup : (l.map Track.id).Nodup) (t : Track)
    (ht : t ∈ l) : lookupById l t.id = some t := by
  induction l with
  | nil => cases ht
  | cons x rest ih =>
    rw [List.map_cons, List.nodup_cons] at hnodup
    rcases List.mem_cons.mp ht with rfl | hmem
    · rw [lookupById, lookupById_eq_none rest t.id hnodup.1]
      simp
    · rw [lookupById, ih hnodup.2 hmem]

theorem selectByIds_unknown (phase : Phase) (candidates : List Track) (target_ms : Int)
    (ids : List String) (h : ∀ tid ∈ ids, tid ∉ candidates.map Track.id) :
    ∀ acc added total,
      selectByIds phase candidates target_ms ids acc added total = (acc, added, total) := by
  induction ids with
  | nil => intro acc added total; rfl
  | cons tid rest ih =>
    intro acc added total
    rw [selectByIds, lookupById_eq_none candidates tid (h tid (List.mem_cons_self _ _))]
    exact ih (fun u hu => h u (List.mem_cons_of_mem _ hu)) acc added total

theorem selectByIds_stalled (phase : Phase) (candidates : List Track) (target_ms : Int)
    (ids : List String) :
    ∀ acc added total, ¬ total < target_ms →
      selectByIds phase candidates target_ms ids acc added total = (acc, added, total) := by
  induction ids with
  | nil => intro acc added total _; rfl
  | cons tid rest ih =>
    intro acc added total htot
    rw [selectByIds]
    cases h : lookupById candidates tid with
    | none =>
      simp only [h]
      exact ih acc added total htot
    | some track =>
      simp only [h]
      rw [if_neg (by tauto)]
      exact ih acc added total htot

theorem selectByIds_straight (phase : Phase) (candidates : List Track) (target_ms : Int)
    (l : List Track) :
    ∀ acc added total,
      (∀ t ∈ l, lookupById candidates t.id = some t) →
      ((l.map Track.id).Nodup) →
      (∀ t ∈ l, t.id ∉ added) →
      selectByIds phase candidates target_ms (l.map Track.id) acc added total =
        (acc ++ (straightTriple phase target_ms total l).1,
         added ++ (straightTriple phase target_ms total l).2.1,
         (straightTriple phase target_ms total l).2.2) := by
  induction l with
  | nil => intro acc added total _ _ _; simp [straightTriple, selectByIds]
  | cons t rest ih =>
    intro acc added total hlook hnodup hfresh
    rw [List.map_cons, selectByIds]
    simp only [hlook t (List.mem_cons_self _ _)]
    rw [List.map_cons, List.nodup_cons] at hnodup
    by_cases htot : total < target_ms
    · rw [if_pos ⟨hfresh t (List.mem_cons_self _ _), htot⟩]
      have hfresh' : ∀ u ∈ rest, u.id ∉ added ++ [t.id] := by
        intro u hu
        rw [List.mem_append]
        push_neg
        refine ⟨hfresh u (List.mem_cons_of_mem _ hu), ?_⟩
        simp only [List.mem_singleton]
        intro he
        exact hnodup.1 (he ▸ List.mem_map_of_mem Track.id hu)
      have hih := ih (acc ++ [{ t with phase := some phase }]) (added ++ [t.id])
        (total + t.duration_ms)
        (fun u hu => hlook u (List.mem_cons_of_mem _ hu)) hnodup.2 hfresh'
      rw [hih, straightTriple, if_pos htot]
      simp
    · rw [if_neg (by tauto)]
      rw [selectByIds_stalled phase candidates target_ms _ acc added total htot]
      rw [straightTriple, if_neg htot]
      simp

theorem straightTriple_fst (phase : Phase) (target_ms : Int) (l : List Track) :
    ∀ total, (straightTriple phase target_ms total l).1 =
      specFallbackWalk phase target_ms total l := by
  induction l with
  | nil => intro total; rfl
  | cons t rest ih =>
    intro total
    by_cases htot : total < target_ms
    · rw [straightTriple, if_pos htot, specFallbackWalk, if_neg (by omega)]
      simp [ih]
    · rw [straightTriple, if_neg htot, specFallbackWalk, if_pos (by omega)]

theorem straightTriple_ids_of_lt (phase : Phase) (target_ms : Int) (l : List Track) :
    ∀ total, (straightTriple phase target_ms total l).2.2 < target_ms →
      (straightTriple phase target_ms total l).2.1 = l.map Track.id := by
  induction l with
  | nil => intro total _; rfl
  | cons t rest ih =>
    intro total hlt
    by_cases htot : total < target_ms
    · rw [straightTriple, if_pos htot] at hlt ⊢
      simp only [List.map_cons]
      rw [ih (total + t.duration_ms) hlt]
    · rw [straightTriple, if_neg htot] at hlt
      exact absurd hlt htot

theorem specFallbackWalk_stop (phase : Phase) (target_ms : Int) (total : Int)
    (l : List Track) (h : target_ms ≤ total) :
    specFallbackWalk phase target_ms total l = [] := by
  cases l with
  | nil => rfl
  | cons t rest => rw [specFallbackWalk, if_pos h]

theorem fillToTarget_eq_specWalk (phase : Phase) (target_ms : Int) (l : List Track) :
    ∀ total, fillToTarget phase target_ms total l = specFallbackWalk phase target_ms total l := by
  induction l with
  | nil => intro total; rfl
  | cons t rest ih =>
    intro total
    rw [fillToTarget, specFallbackWalk]
    by_cases h : target_ms ≤ total
    · rw [if_pos h, if_pos h]
    · rw [if_neg h, if_neg h, ih]

theorem sortForPhase_perm (phase : Phase) (ts : List Track) :
    (sortForPhase phase ts).Perm ts := by
  cases phase with
  | warmup => exact List.mergeSort_perm ts _
  | peak => exact List.Perm.refl ts
  | cooldown => exact List.mergeSort_perm ts _

theorem sortForPhase_nil (phase : Phase) : sortForPhase phase [] = [] := by
  cases phase <;> simp [sortForPhase]

/-- Counterexample for C2: with two distinct candidate records sharing the
id "x" (durations 100 and 200 ms) and a raising advisory call, the peak
phase with target 250 ms keeps only the last record (the id-keyed dict
collapses the duplicates), while the spec's fallback walk keeps both. -/
theorem advisory_fallback_duplicate_ids_counterexample :
    curateOnePhase advFail Phase.peak [dupTrackA, dupTrackB] 250 ⟨0, 0⟩ ≠
      specFallback Phase.peak [dupTrackA, dupTrackB] 250 := by
  decide

/-- Claim C2 (amended): for every phase and every candidate list whose
track ids are pairwise distinct, if the advisory curation call raises or
returns malformed data (ids none of which occur among the candidates),
the phase track sequence equals the deterministic fallback run directly
on the same candidate set: sort ascending by BPM for warmup, descending
for cooldown, original order for peak, then take tracks until the running
total duration meets or exceeds the phase target or candidates are
exhausted. -/
theorem advisory_failure_fallback_equiv
    (adv : Phase → List Track → Int → BpmRange → Option (List String))
    (phase : Phase) (candidates : List Track) (target_ms : Int) (range : BpmRange)
    (hnodup : (candidates.map Track.id).Nodup)
    (hfail : adv phase candidates target_ms range = none ∨
      ∃ ids, adv phase candidates target_ms range = some ids ∧
        ∀ tid ∈ ids, tid ∉ candidates.map Track.id) :
    curateOnePhase adv phase candidates target_ms range =
      specFallback phase candidates target_ms := by
  rcases hfail with hnone | ⟨ids, hsome, hunknown⟩
  · -- The advisory call raises: the ids are all candidate ids in fallback
    -- sort order, and the reconstruction walks them straight through.
    unfold curateOnePhase askDedalusToCurate
    rw [hnone]
    unfold buildPhaseTracks
    have hperm : (sortForPhase phase candidates).Perm candidates := sortForPhase_perm phase candidates
    have hpermids : ((sortForPhase phase candidates).map Track.id).Perm (candidates.map Track.id) :=
      hperm.map Track.id
    have hnodup' : ((sortForPhase phase candidates).map Track.id).Nodup :=
      hpermids.nodup_iff.mpr hnodup
    rw [selectByIds_straight phase candidates target_ms (sortForPhase phase candidates) [] [] 0
      (fun t ht => lookupById_mem candidates hnodup t (hperm.mem_iff.mp ht))
      hnodup' (fun t _ => List.not_mem_nil t.id)]
    simp only [List.nil_append]
    by_cases hT : (straightTriple phase target_ms 0 (sortForPhase phase candidates)).2.2 < target_ms
    · rw [if_pos hT]
      have hids := straightTriple_ids_of_lt phase target_ms (sortForPhase phase candidates) 0 hT
      have hfilter : candidates.filter
          (fun t => decide (t.id ∉ (straightTriple phase target_ms 0
            (sortForPhase phase candidates)).2.1)) = [] := by
        rw [List.filter_eq_nil_iff]
        intro t ht
        simp only [decide_eq_true_eq, not_not]
        rw [hids]
        exact hpermids.mem_iff.mpr (List.mem_map_of_mem Track.id ht)
      rw [hfilter, sortForPhase_nil]
      rw [straightTriple_fst]
      simp [fillToTarget, specFallback]
    · rw [if_neg hT]
      rw [straightTriple_fst]
      rfl
  · -- The advisory call returns ids that match no candidate: nothing is
    -- selected in the first loop and the fallback top-up does all the work.
    unfold curateOnePhase askDedalusToCurate
    rw [hsome]
    unfold buildPhaseTracks
    rw [show ids = ids.map id from (List.map_id ids).symm] at hunknown ⊢
    rw [selectByIds_unknown phase candidates target_ms _ (by simpa using hunknown) [] [] 0]
    by_cases hT : (0 : Int) < target_ms
    · rw [if_pos hT]
      have hfilter : candidates.filter (fun t => decide (t.id ∉ ([] : List String))) =
          candidates := by
        rw [List.filter_eq_self]
        intro t _
        simp
      rw [hfilter]
      show ([] : List Track) ++ fillToTarget phase target_ms 0 (sortForPhase phase candidates) =
        specFallback phase candidates target_ms
      rw [List.nil_append, fillToTarget_eq_specWalk]
      rfl
    · rw [if_neg hT]
      rw [specFallback, specFallbackWalk_stop phase target_ms 0 _ (by omega)]

/-- Witness for C2: a raising advisory call on four distinct-id candidates
with target 250 ms matches the spec fallback. -/
theorem advisory_failure_fallback_equiv_witness :
    ((fourTracks.map Track.id).Nodup ∧
      (advFail Phase.peak fourTracks 250 ⟨0, 0⟩ = none ∨
        ∃ ids, advFail Phase.peak fourTracks 250 ⟨0, 0⟩ = some ids ∧
          ∀ tid ∈ ids, tid ∉ fourTracks.map Track.id)) ∧
    curateOnePhase advFail Phase.peak fourTracks 250 ⟨0, 0⟩ =
      specFallback Phase.peak fourTracks 250 :=
  ⟨⟨by decide, Or.inl rfl⟩,
    advisory_failure_fallback_equiv advFail Phase.peak fourTracks 250 ⟨0, 0⟩
      (by decide) (Or.inl rfl)⟩

/-! Lemmas for degraded runs and the exclusion-set threading. -/

theorem tagFamiliar_bpm (t : Track) : (tagFamiliar t).bpm = t.bpm := by
  unfold tagFamiliar
  split <;> rfl

theorem processPhase_playlist_of_empty (discover : SearchQuery → List Track)
    (adv : Phase → List Track → Int → BpmRange → Option (List String))
    (genre : Option String) (hint_artists : List String) (workout_minutes : Int)
    (fracs : Phase → Rat) (ranges : Phase → BpmRange) (buckets : PhaseBuckets)
    (st : CurateState) (p : Phase)
    (hb : buckets.get p = []) (hd : ∀ q, discover q = []) :
    (processPhase discover adv genre hint_artists workout_minutes fracs ranges buckets
      st p).playlist = st.playlist := by
  unfold processPhase
  rw [hb]
  by_cases h : totalDurationMs [] < phaseTargetMs workout_minutes (fracs p)
  · simp [h, hd]
  · simp [h]

theorem foldl_processPhase_playlist (discover : SearchQuery → List Track)
    (adv : Phase → List Track → Int → BpmRange → Option (List String))
    (genre : Option String) (hint_artists : List String) (workout_minutes : Int)
    (fracs : Phase → Rat) (ranges : Phase → BpmRange) (buckets : PhaseBuckets)
    (hd : ∀ q, discover q = []) (hb : ∀ p, buckets.get p = []) :
    ∀ (ps : List Phase) (st : CurateState),
      (ps.foldl (processPhase discover adv genre hint_artists workout_minutes fracs ranges
        buckets) st).playlist = st.playlist := by
  intro ps
  induction ps with
  | nil => intro st; rfl
  | cons p rest ih =>
    intro st
    rw [List.foldl_cons, ih]
    exact processPhase_playlist_of_empty discover adv genre hint_artists workout_minutes
      fracs ranges buckets st p (hb p) hd

/-- Claim C6: on upstream-data failure — every familiar track lacking a
bpm (in particular an empty familiar list) and every discovery query
returning no tracks — `curate_playlist` returns the empty playlist
instead of failing. -/
theorem curate_degrades_without_upstream_data (discover : SearchQuery → List Track)
    (adv : Phase → List Track → Int → BpmRange → Option (List String))
    (hints : DiscoveryHints) (workout_plan : WorkoutPlan) (familiar_tracks : List Track)
    (workout_minutes : Int) (genre_pref : String)
    (hd : ∀ q, discover q = [])
    (hbpm : ∀ t ∈ familiar_tracks, t.bpm = none) :
    curate_playlist discover adv hints workout_plan familiar_tracks workout_minutes
      genre_pref = [] := by
  have hfilter : (familiar_tracks.map tagFamiliar).filter (fun t => t.bpm.isSome) = [] := by
    rw [List.filter_eq_nil_iff]
    intro t ht
    rcases List.mem_map.mp ht with ⟨u, hu, rfl⟩
    simp [tagFamiliar_bpm, hbpm u hu]
  have hpipe : (curatePipeline discover adv hints workout_plan familiar_tracks
      workout_minutes genre_pref).playlist = [] := by
    simp only [curatePipeline]
    rw [hfilter]
    rw [foldl_processPhase_playlist discover adv _ _ workout_minutes _ _ _ hd
      (fun p => by cases p <;> rfl)]
  unfold curate_playlist
  rw [hpipe]
  unfold globalTopUp
  simp only [hd]
  split_ifs <;> simp [topUpLoop, dedupById, dedupByIdAux]

/-- Witness for C6: the empty familiar list with empty discovery yields
the empty playlist. -/
theorem curate_degrades_without_upstream_data_witness :
    ((∀ q, discEmpty q = []) ∧ (∀ t ∈ ([] : List Track), t.bpm = none)) ∧
    curate_playlist discEmpty advFail hintsEmpty planConcrete [] 30 "" = [] :=
  ⟨⟨fun _ => rfl, by simp⟩,
    curate_degrades_without_upstream_data discEmpty advFail hintsEmpty planConcrete [] 30 ""
      (fun _ => rfl) (by simp)⟩

theorem processPhase_step_shape (discover : SearchQuery → List Track)
    (adv : Phase → List Track → Int → BpmRange → Option (List String))
    (genre : Option String) (hint_artists : List String) (workout_minutes : Int)
    (fracs : Phase → Rat) (ranges : Phase → BpmRange) (buckets : PhaseBuckets)
    (st : CurateState) (p : Phase) :
    ((processPhase discover adv genre hint_artists workout_minutes fracs ranges buckets
        st p).queries = st.queries ∧
     (processPhase discover adv genre hint_artists workout_minutes fracs ranges buckets
        st p).used_ids = st.used_ids) ∨
    (∃ q, q.exclude_ids = st.used_ids ∧
      (processPhase discover adv genre hint_artists workout_minutes fracs ranges buckets
        st p).queries = st.queries ++ [q] ∧
      (processPhase discover adv genre hint_artists workout_minutes fracs ranges buckets
        st p).used_ids = st.used_ids ++ (discover q).map Track.id) := by
  unfold processPhase
  by_cases h : totalDurationMs (buckets.get p) < phaseTargetMs workout_minutes (fracs p)
  · right
    refine ⟨phaseQuery (ranges p) genre st.used_ids
      (estNeeded (phaseTargetMs workout_minutes (fracs p) - totalDurationMs (buckets.get p)))
      hint_artists, rfl, ?_, ?_⟩ <;>
      · simp only [h, if_true, if_pos h]
        split_ifs <;> rfl
  · left
    constructor <;>
      · simp only [h, if_false, if_neg h]
        split_ifs <;> rfl

theorem foldl_exclusion_inv (discover : SearchQuery → List Track)
    (adv : Phase → List Track → Int → BpmRange → Option (List String))
    (genre : Option String) (hint_artists : List String) (workout_minutes : Int)
    (fracs : Phase → Rat) (ranges : Phase → BpmRange) (buckets : PhaseBuckets)
    (famIds : List String) :
    ∀ (ps : List Phase) (st : CurateState),
      famIds ⊆ st.used_ids →
      (∀ q ∈ st.queries, famIds ⊆ q.exclude_ids) →
      (∀ q ∈ st.queries, (discover q).map Track.id ⊆ st.used_ids) →
      (∀ (i j : Nat) (hi : i < st.queries.length) (hj : j < st.queries.length), i < j →
        (discover (st.queries.get ⟨i, hi⟩)).map Track.id ⊆
          (st.queries.get ⟨j, hj⟩).exclude_ids) →
      (∀ q ∈ (ps.foldl (processPhase discover adv genre hint_artists workout_minutes fracs
          ranges buckets) st).queries, famIds ⊆ q.exclude_ids) ∧
      (∀ (i j : Nat)
        (hi : i < (ps.foldl (processPhase discover adv genre hint_artists workout_minutes
          fracs ranges buckets) st).queries.length)
        (hj : j < (ps.foldl (processPhase discover adv genre hint_artists workout_minutes
          fracs ranges buckets) st).queries.length), i < j →
        (discover ((ps.foldl (processPhase discover adv genre hint_artists workout_minutes
          fracs ranges buckets) st).queries.get ⟨i, hi⟩)).map Track.id ⊆
          ((ps.foldl (processPhase discover adv genre hint_artists workout_minutes fracs
            ranges buckets) st).queries.get ⟨j, hj⟩).exclude_ids) := by
  intro ps
  induction ps with
  | nil =>
    intro st _ h2 _ h4
    exact ⟨h2, h4⟩
  | cons p rest ih =>
    intro st h1 h2 h3 h4
    rw [List.foldl_cons]
    rcases processPhase_step_shape discover adv genre hint_artists workout_minutes fracs
        ranges buckets st p with ⟨hq, hu⟩ | ⟨q0, hq0, hq, hu⟩
    · exact ih _ (hu ▸ h1) (hq ▸ h2) (fun q hq2 => hu ▸ h3 q (hq ▸ hq2))
        (by rw [hq]; exact h4)
    · apply ih _
      · rw [hu]
        exact h1.trans (List.subset_append_left _ _)
      · rw [hq]
        intro q hqm
        rcases List.mem_append.mp hqm with hold | hnew
        · exact h2 q hold
        · rw [List.mem_singleton.mp hnew, hq0]
          exact h1
      · rw [hq, hu]
        intro q hqm
        rcases List.mem_append.mp hqm with hold | hnew
        · exact (h3 q hold).trans (List.subset_append_left _ _)
        · rw [List.mem_singleton.mp hnew]
          exact List.subset_append_right _ _
      · rw [hq]
        intro i j hi hj hij
        simp only [List.get_eq_getElem]
        have hjlen : j < st.queries.length + 1 := by simpa using hj
        by_cases hjq : j < st.queries.length
        · have hiq : i < st.queries.length := Nat.lt_trans hij hjq
          rw [List.getElem_append_left hiq, List.getElem_append_left hjq]
          have := h4 i j hiq hjq hij
          simpa [List.get_eq_getElem] using this
        · have hj' : j = st.queries.length := by omega
          have hiq : i < st.queries.length := by omega
          rw [List.getElem_append_left hiq, List.getElem_concat_length _ _ _ hj']
          rw [hq0]
          exact h3 _ (List.getElem_mem _)

/-- Claim C10: in every build, the discovery exclusion set is seeded with
the id of every bpm-tagged familiar track (selected or not) and grows
with every discovery result; hence every phase discovery query excludes
all bpm-tagged familiar ids and every id returned by an earlier phase's
discovery query. -/
theorem discovery_exclusion_threading (discover : SearchQuery → List Track)
    (adv : Phase → List Track → Int → BpmRange → Option (List String))
    (hints : DiscoveryHints) (workout_plan : WorkoutPlan) (familiar_tracks : List Track)
    (workout_minutes : Int) (genre_pref : String) :
    (∀ q ∈ (curatePipeline discover adv hints workout_plan familiar_tracks workout_minutes
        genre_pref).queries,
      (((familiar_tracks.map tagFamiliar).filter (fun t => t.bpm.isSome)).map Track.id) ⊆
        q.exclude_ids) ∧
    (∀ (i j : Nat)
      (hi : i < (curatePipeline discover adv hints workout_plan familiar_tracks
        workout_minutes genre_pref).queries.length)
      (hj : j < (curatePipeline discover adv hints workout_plan familiar_tracks
        workout_minutes genre_pref).queries.length), i < j →
      (discover ((curatePipeline discover adv hints workout_plan familiar_tracks
        workout_minutes genre_pref).queries.get ⟨i, hi⟩)).map Track.id ⊆
        ((curatePipeline discover adv hints workout_plan familiar_tracks workout_minutes
          genre_pref).queries.get ⟨j, hj⟩).exclude_ids) := by
  simp only [curatePipeline]
  apply foldl_exclusion_inv
  · exact List.Subset.refl _
  · intro q hq
    cases hq
  · intro q hq
    cases hq
  · intro i j hi hj hij
    simp at hi

/-- Witness for C10: in a concrete run issuing three discovery queries,
the ids returned by the first query are contained in the exclusion set of
the second. -/
theorem discovery_exclusion_threading_witness :
    (discConst ((curatePipeline discConst advFail hintsEmpty planConcrete [] 30
        "").queries.get ⟨0, by decide⟩)).map Track.id ⊆
      ((curatePipeline discConst advFail hintsEmpty planConcrete [] 30 "").queries.get
        ⟨1, by decide⟩).exclude_ids :=
  (discovery_exclusion_threading discConst advFail hintsEmpty planConcrete [] 30 "").2 0 1
    (by decide) (by decide) (by decide)

end MusicCurator
